import Mathlib

/-!
Verification development for `krzko/export-job-telemetry`
(`cmd/export-job-telemetry/main.go`).

Strings are modelled as `List Char` (written via `"...".data`), Go maps as
association lists with overwrite-on-insert, timestamps as integer nanosecond
counts, and `main` as a pure function from its inputs (plus the wall clock and
the success of exporter initialization) to a record of the run's observable
outcome: which abort fired, whether the tracer provider was initialized,
whether its deferred shutdown ran, and the span that was emitted.
-/

set_option autoImplicit false

namespace ExportJobTelemetry

/-- Strings of the Go program, modelled as lists of characters. -/
abbrev Str := List Char

/-! ## Go string splitting primitives -/

/-- Go `strings.Split(s, sep)` for a one-character separator: splits around
every occurrence of `sep`; the empty string yields `[""]`. -/
def splitOnChar (sep : Char) : Str → List Str
  | [] => [[]]
  | c :: rest =>
    let r := splitOnChar sep rest
    if c = sep then [] :: r
    else
      match r with
      | [] => [[c]]
      | g :: gs => (c :: g) :: gs

/-- Go `strings.SplitN(s, sep, 2)` for a one-character separator: splits at
the first occurrence of `sep` only, yielding a one- or two-element list. -/
def splitFirst (sep : Char) : Str → List Str
  | [] => [[]]
  | c :: rest =>
    if c = sep then [[], rest]
    else
      match splitFirst sep rest with
      | [k] => [c :: k]
      | [k, v] => [c :: k, v]
      | _ => [[c]]

/-! ## Go maps as association lists -/

/-- Go map assignment `m[k] = v`: overwrite the binding of `k` if present,
otherwise append a new binding. -/
def mapInsert : List (Str × Str) → Str → Str → List (Str × Str)
  | [], k, v => [(k, v)]
  | (k', v') :: rest, k, v =>
    if k' = k then (k', v) :: rest else (k', v') :: mapInsert rest k v

/-- Go map read `m[k]`: the value bound to `k`, if any. -/
def mapLookup : List (Str × Str) → Str → Option Str
  | [], _ => none
  | (k', v) :: rest, k => if k' = k then some v else mapLookup rest k

/-- Loop body of `parseKeyValuePairs` from `main.go`:
`kv := strings.SplitN(pair, "=", 2); if len(kv) == 2 { pairs[kv[0]] = kv[1] }`. -/
def kvStep (pairs : List (Str × Str)) (pair : Str) : List (Str × Str) :=
  match splitFirst '=' pair with
  | [k, v] => mapInsert pairs k v
  | _ => pairs

/-- `parseKeyValuePairs` from `main.go`: split the input on `,`, split each
candidate on the first `=` only, and insert the pair into the map whenever the
split produced two fields; candidates without `=` are skipped. -/
def parseKeyValuePairs (input : Str) : List (Str × Str) :=
  (splitOnChar ',' input).foldl kvStep []

/-- Value a single comma-separated candidate contributes for key `k`: the
part after the first `=` when the candidate contains `=` and the part before
it equals `k`; nothing otherwise. Written from the specification's words. -/
def candLookup (k cand : Str) : Option Str :=
  match splitFirst '=' cand with
  | [k', v] => if k' = k then some v else none
  | _ => none

/-- Reference lookup written from the specification's words for the key=value
parser: among the comma-separated candidates that contain an `=`, take the
last one whose part before the first `=` equals `k`, and return the part
after that `=`. Used to compare `parseKeyValuePairs` against the spec. -/
def kvLookupSpec (input k : Str) : Option Str :=
  (splitOnChar ',' input).reverse.findSome? (candLookup k)

/-! ## Hexadecimal decoding and encoding (Go `encoding/hex`) -/

/-- A character Go's `encoding/hex` accepts: `0-9`, `a-f`, `A-F`. -/
def isHexDigit (c : Char) : Prop :=
  (48 ≤ c.toNat ∧ c.toNat ≤ 57) ∨ (97 ≤ c.toNat ∧ c.toNat ≤ 102) ∨
    (65 ≤ c.toNat ∧ c.toNat ≤ 70)

instance : DecidablePred isHexDigit := fun c => by
  unfold isHexDigit; infer_instance

/-- Numeric value of a hex digit, as in Go's `fromHexChar`. -/
def hexVal (c : Char) : Nat :=
  if 48 ≤ c.toNat ∧ c.toNat ≤ 57 then c.toNat - 48
  else if 97 ≤ c.toNat ∧ c.toNat ≤ 102 then c.toNat - 87
  else if 65 ≤ c.toNat ∧ c.toNat ≤ 70 then c.toNat - 55
  else 0

/-- Go `hex.DecodeString`: consume the characters two at a time, failing on a
non-hex character or an odd-length input; each pair yields one byte. -/
def decodePairs : Str → Option (List Nat)
  | [] => some []
  | [_] => none
  | a :: b :: rest =>
    if isHexDigit a ∧ isHexDigit b then
      (decodePairs rest).map (fun bs => (16 * hexVal a + hexVal b) :: bs)
    else none

/-- Go `hex.DecodeString` on a string. -/
def hexDecode (s : Str) : Option (List Nat) := decodePairs s

/-- Lowercase hex digit for a value below 16, as in Go's `hex.EncodeToString`
alphabet `0123456789abcdef`. -/
def hexChar (v : Nat) : Char :=
  if v < 10 then Char.ofNat (48 + v) else Char.ofNat (87 + v)

/-- One byte as two lowercase hex digits. -/
def encByte (b : Nat) : Str := [hexChar (b / 16), hexChar (b % 16)]

/-- Go `hex.EncodeToString`: every byte as two lowercase hex digits. -/
def hexEncode (bs : List Nat) : Str := bs.flatMap encByte

/-- ASCII lowercasing restricted to `A`-`F`, used to state case-insensitive
equality of hex text. -/
def lowerChar (c : Char) : Char :=
  if 65 ≤ c.toNat ∧ c.toNat ≤ 70 then Char.ofNat (c.toNat + 32) else c

/-! ## Traceparent handling (`main.go` lines 106-136) -/

/-- Outcome of the traceparent-handling block of `main`:
`fatalSegments`/`fatalTraceID`/`fatalSpanID` are the three
`githubactions.Fatalf` calls; `panicShort` is the runtime panic raised by the
Go slice-to-array conversions `trace.TraceID(traceID)` / `trace.SpanID(...)`
when the decoded slice is shorter than 16 / 8 bytes; `ok` carries the 16-byte
trace ID and 8-byte span ID actually stored in the span context (a longer
decoded slice is silently truncated by the conversion). -/
inductive TPResult where
  | fatalSegments
  | fatalTraceID
  | fatalSpanID
  | panicShort
  | ok (traceID : List Nat) (spanID : List Nat)
deriving DecidableEq

/-- The traceparent-handling block of `main`: split on `-`, require exactly 4
segments, hex-decode segment 1 (trace ID) and segment 2 (parent span ID), then
build the span context, whose array conversions panic on short slices and
truncate long ones. Segments 0 (version) and 3 (flags) are never inspected. -/
def parseTraceparent (tp : Str) : TPResult :=
  match splitOnChar '-' tp with
  | [_v, t, p, _f] =>
    match hexDecode t with
    | none => .fatalTraceID
    | some tid =>
      match hexDecode p with
      | none => .fatalSpanID
      | some sid =>
        if tid.length < 16 then .panicShort
        else if sid.length < 8 then .panicShort
        else .ok (tid.take 16) (sid.take 8)
  | _ => .fatalSegments

/-! ## Span status mapping (`main.go` lines 142-155) -/

/-- OpenTelemetry span status codes used by the program. -/
inductive SpanStatusCode where
  | ok
  | error
  | unset
deriving DecidableEq

/-- The `switch params.JobStatus` block of `main`. -/
def jobStatusToSpanStatus (s : Str) : SpanStatusCode × Str :=
  if s = "success".data then (.ok, "Job completed successfully".data)
  else if s = "failure".data then (.error, "Job failed".data)
  else (.unset, "Job status unknown".data)

/-! ## Durations (Go `time.Time.Sub` and `time.Duration.Milliseconds`) -/

/-- Largest `time.Duration` (`math.MaxInt64` nanoseconds). -/
def maxDur : Int := 9223372036854775807

/-- Smallest `time.Duration` (`math.MinInt64` nanoseconds). -/
def minDur : Int := -9223372036854775808

/-- Go `a.Sub(b)` on times modelled as nanosecond counts: the difference,
saturated to the `time.Duration` (int64 nanoseconds) range. -/
def timeSub (a b : Int) : Int :=
  if a - b > maxDur then maxDur
  else if a - b < minDur then minDur
  else a - b

/-- Go `time.Duration.Milliseconds()`: division by 10^6 truncating toward
zero (Go integer division). -/
def durMs (d : Int) : Int :=
  if 0 ≤ d then d / 1000000 else -((-d) / 1000000)

/-- `end.Sub(start).Milliseconds()` as used by `main` for both the
start-latency and the duration attribute. -/
def duration (endT startT : Int) : Int := durMs (timeSub endT startT)

/-! ## Resource construction (`initTracer`, `main.go` lines 66-97) -/

/-- Attribute-set semantics of the OpenTelemetry SDK's
`resource.NewWithAttributes` (external library, modelled from its documented
contract): keys are unique and, among duplicate keys in the input list, the
last value wins. Keeps the last occurrence of every key. -/
def dedupLast : List (Str × Str) → List (Str × Str)
  | [] => []
  | (k, v) :: rest =>
    if k ∈ rest.map Prod.fst then dedupLast rest
    else (k, v) :: dedupLast rest

/-- Resource attribute set built by `initTracer`: every entry of `attrs`
(in whatever order the Go map is enumerated), then `service.name` bound to
`serviceName` appended last, handed to `resource.NewWithAttributes`. -/
def buildResource (serviceName : Str) (attrs : List (Str × Str)) :
    List (Str × Str) :=
  dedupLast (attrs ++ [("service.name".data, serviceName)])

/-! ## The run of `main` -/

/-- A span attribute value: `attribute.String` or `attribute.Int64`. -/
inductive AttrValue where
  | str (s : Str)
  | int (i : Int)
deriving DecidableEq

/-- First-match lookup in a span attribute list. -/
def attrLookup : List (Str × AttrValue) → Str → Option AttrValue
  | [], _ => none
  | (k', v) :: rest, k => if k' = k then some v else attrLookup rest k

/-- `InputParams` from `main.go` (the two key=value inputs already parsed by
`parseKeyValuePairs`, as in `parseInputParams`). -/
structure InputParams where
  Traceparent : Str
  OtelResourceAttrs : List (Str × Str)
  OtelServiceName : Str
  OtelExporterEndpoint : Str
  OtelExporterOtlpHeaders : List (Str × Str)
  StartedAt : Str
  CreatedAt : Str
  JobStatus : Str
  JobName : Str
deriving DecidableEq

/-- The single span emitted by `main`: remote parent linkage, explicit start
and end timestamps, status, and the attribute list passed to
`span.SetAttributes` (in the order the code builds it). -/
structure SpanRecord where
  parentTraceID : List Nat
  parentSpanID : List Nat
  startTime : Int
  endTime : Int
  statusCode : SpanStatusCode
  statusMessage : Str
  attributes : List (Str × AttrValue)
deriving DecidableEq

/-- How a run of `main` ends: a `githubactions.Fatalf` call (carrying the
format string of the message, and exiting via `os.Exit(1)`), a runtime panic,
or normal completion with the emitted span. -/
inductive RunOutcome where
  | fatal (formatMsg : Str)
  | panicked
  | ok (span : SpanRecord)
deriving DecidableEq

/-- Observable result of one process run: the outcome, whether
`sdktrace.NewTracerProvider` had been called, and whether the deferred
`shutdownTracer` closure actually ran before the process exited. -/
structure RunResult where
  outcome : RunOutcome
  providerInitialized : Bool
  shutdownInvoked : Bool
deriving DecidableEq

/-- Format string of `Fatalf` in `initTracer` on exporter failure. -/
def fmtExporterInit : Str := "failed to initialize exporter: %v".data

/-- Format string of `Fatalf` on a traceparent with the wrong segment count. -/
def fmtInvalidTraceparent : Str := "invalid traceparent: %v".data

/-- Format string of `Fatalf` on a non-hex trace ID segment. -/
def fmtInvalidTraceID : Str := "invalid TraceID: %v".data

/-- Format string of `Fatalf` on a non-hex span ID segment. -/
def fmtInvalidSpanID : Str := "invalid SpanID: %v".data

/-- Format string of `Fatalf` on an unparseable started-at input. -/
def fmtInvalidStartedAt : Str := "failed to parse started-at time: %v".data

/-- Format string of `Fatalf` on an unparseable created-at input. -/
def fmtInvalidCreatedAt : Str := "failed to parse created-at time: %v".data

/-- Span attribute key for the job conclusion. -/
def keyConclusion : Str := "ci.github.workflow.job.conclusion".data

/-- Span attribute key for the queue latency. -/
def keyStartLatency : Str := "ci.github.workflow.job.start_latency_ms".data

/-- Span attribute key for the job name. -/
def keyJobName : Str := "ci.github.workflow.job.name".data

/-- Span attribute key for the execution duration. -/
def keyDuration : Str := "ci.github.workflow.job.duration_ms".data

/-- The run of `main` (current `cmd/export-job-telemetry/main.go`), as a pure
function of: the RFC 3339 parser of the external Go `time` package
(`parseTime`, `time.Parse(time.RFC3339, ·)` returning `none` on error), the
wall-clock nanosecond count `now` sampled by `time.Now()`, whether
`otlptracegrpc.New` succeeds (`expInitOk`; its failure is external I/O), and
the parsed inputs.

Exit-path semantics are Go's: `githubactions.Fatalf` terminates via
`os.Exit(1)`, which does not run deferred functions, so the deferred
`shutdownTracer` is skipped on every fatal path; a runtime panic unwinds and
does run deferred functions; a normal return runs them. -/
def runMain (parseTime : Str → Option Int) (now : Int) (expInitOk : Bool)
    (params : InputParams) : RunResult :=
  if expInitOk = false then
    { outcome := .fatal fmtExporterInit, providerInitialized := false,
      shutdownInvoked := false }
  else
    match parseTraceparent params.Traceparent with
    | .fatalSegments =>
      { outcome := .fatal fmtInvalidTraceparent, providerInitialized := true,
        shutdownInvoked := false }
    | .fatalTraceID =>
      { outcome := .fatal fmtInvalidTraceID, providerInitialized := true,
        shutdownInvoked := false }
    | .fatalSpanID =>
      { outcome := .fatal fmtInvalidSpanID, providerInitialized := true,
        shutdownInvoked := false }
    | .panicShort =>
      { outcome := .panicked, providerInitialized := true,
        shutdownInvoked := true }
    | .ok tid sid =>
      match parseTime params.StartedAt with
      | none =>
        { outcome := .fatal fmtInvalidStartedAt, providerInitialized := true,
          shutdownInvoked := false }
      | some startedAt =>
        let st := jobStatusToSpanStatus params.JobStatus
        let attrs0 : List (Str × AttrValue) :=
          [(keyConclusion, .str params.JobStatus)]
        let finish : List (Str × AttrValue) → RunResult := fun attrs1 =>
          let attrs2 :=
            if params.JobName = [] then attrs1
            else attrs1 ++ [(keyJobName, .str params.JobName)]
          let endTime := now
          let attrs3 :=
            attrs2 ++ [(keyDuration, .int (duration endTime startedAt))]
          let attrs4 :=
            attrs3 ++ params.OtelResourceAttrs.map
              (fun kv => (kv.1, AttrValue.str kv.2))
          { outcome := .ok
              { parentTraceID := tid, parentSpanID := sid,
                startTime := startedAt, endTime := endTime,
                statusCode := st.1, statusMessage := st.2,
                attributes := attrs4 },
            providerInitialized := true, shutdownInvoked := true }
        if params.CreatedAt = [] then finish attrs0
        else
          match parseTime params.CreatedAt with
          | none =>
            { outcome := .fatal fmtInvalidCreatedAt,
              providerInitialized := true, shutdownInvoked := false }
          | some createdAt =>
            finish (attrs0 ++
              [(keyStartLatency, .int (duration startedAt createdAt))])

/-- True when the traceparent block reaches span construction. -/
def emitsSpan : TPResult → Bool
  | .ok _ _ => true
  | _ => false

/-- Attribute lookup on the span of a completed run, `none` when the run did
not emit a span. -/
def resultAttrLookup (r : RunResult) (k : Str) : Option AttrValue :=
  match r.outcome with
  | .ok span => attrLookup span.attributes k
  | _ => none

/-- True when the run completed normally and emitted its span. -/
def resultEmitsSpan (r : RunResult) : Bool :=
  match r.outcome with
  | .ok _ => true
  | _ => false

/-- Stand-in for the external RFC 3339 parser (`time.Parse`) used when
evaluating runs on concrete inputs: it recognizes the two literal timestamps
of the running example and rejects everything else. -/
def ptDemo : Str → Option Int := fun s =>
  if s = "2024-01-01T00:00:00Z".data then some 1704067200000000000
  else if s = "2023-12-31T23:59:30Z".data then some 1704067170000000000
  else none

/-- Concrete inputs of the running example, with the optional created-at and
job-name both supplied. -/
def paramsDemo : InputParams :=
  { Traceparent :=
      "00-4bf92f3577b34da6a3ce929d0e0e4736-00f067aa0ba902b7-01".data
    OtelResourceAttrs := [("deployment.environment".data, "dev".data)]
    OtelServiceName := "o11y.workflows".data
    OtelExporterEndpoint := "otelcol.foo.corp:443".data
    OtelExporterOtlpHeaders := []
    StartedAt := "2024-01-01T00:00:00Z".data
    CreatedAt := "2023-12-31T23:59:30Z".data
    JobStatus := "success".data
    JobName := "build".data }

/-- The running example with the optional created-at and job-name left empty. -/
def paramsDemoNoOpt : InputParams :=
  { paramsDemo with CreatedAt := [], JobName := [] }

/-- Wall-clock instant of the running example, 5 s after started-at. -/
def nowDemo : Int := 1704067205000000000

/-! ## Association-list lemmas -/

theorem mapLookup_insert (m : List (Str × Str)) (k v k' : Str) :
    mapLookup (mapInsert m k v) k' = if k = k' then some v else mapLookup m k' := by
  induction m with
  | nil => simp [mapInsert, mapLookup]
  | cons kv rest ih =>
    obtain ⟨k0, v0⟩ := kv
    by_cases h0 : k0 = k
    · subst h0
      simp only [mapInsert, if_pos rfl, mapLookup]
      by_cases h1 : k0 = k' <;> simp [h1]
    · simp only [mapInsert, if_neg h0, mapLookup, ih]
      by_cases h1 : k0 = k'
      · subst h1
        have hne : ¬k = k0 := fun he => h0 he.symm
        simp [if_neg hne]
      · simp [h1]

theorem mapLookup_append (m1 m2 : List (Str × Str)) (k : Str) :
    mapLookup (m1 ++ m2) k = (mapLookup m1 k).or (mapLookup m2 k) := by
  induction m1 with
  | nil => simp [mapLookup]
  | cons kv rest ih =>
    obtain ⟨k', v⟩ := kv
    by_cases h : k' = k
    · simp [mapLookup, h]
    · simp [mapLookup, h, ih]

theorem mapLookup_eq_none_iff (m : List (Str × Str)) (k : Str) :
    mapLookup m k = none ↔ k ∉ m.map Prod.fst := by
  induction m with
  | nil => simp [mapLookup]
  | cons kv rest ih =>
    obtain ⟨k', v⟩ := kv
    by_cases h : k' = k
    · subst h
      simp [mapLookup]
    · have hne : ¬k = k' := fun h' => h h'.symm
      simp [mapLookup, h, ih, hne]

theorem mapLookup_foldl_kvStep (cs : List Str) (acc : List (Str × Str)) (k : Str) :
    mapLookup (cs.foldl kvStep acc) k
      = (cs.reverse.findSome? (candLookup k)).or (mapLookup acc k) := by
  induction cs generalizing acc with
  | nil => simp
  | cons c rest ih =>
    simp only [List.foldl_cons, List.reverse_cons, List.findSome?_append, ih,
      Option.or_assoc]
    congr 1
    simp only [List.findSome?]
    unfold kvStep candLookup
    rcases hsf : splitFirst '=' c with _ | ⟨k1, _ | ⟨v1, _ | r⟩⟩ <;>
      simp only [mapLookup_insert, Option.or]
    split
    · next hk => simp [hk]
    · next hk => simp [hk]

/-! ## Claim theorems for the key=value parser -/

/-- C5: for every input string the key=value parser returns a mapping and
never fails; it splits on `,`, splits each candidate on the first `=` only,
silently drops candidates without `=`, returns the empty mapping for empty
input, and on duplicate keys the last occurrence wins — its lookup function
coincides with the specification's candidate-by-candidate description. -/
theorem kv_parse_matches_spec :
    (∀ input k, mapLookup (parseKeyValuePairs input) k = kvLookupSpec input k)
    ∧ parseKeyValuePairs "".data = []
    ∧ mapLookup (parseKeyValuePairs "a=1,bad,b=2".data) "a".data = some "1".data
    ∧ mapLookup (parseKeyValuePairs "a=1,bad,b=2".data) "b".data = some "2".data
    ∧ mapLookup (parseKeyValuePairs "a=1,bad,b=2".data) "bad".data = none
    ∧ mapLookup (parseKeyValuePairs "a=b=c".data) "a".data = some "b=c".data
    ∧ mapLookup (parseKeyValuePairs "x=1,x=2".data) "x".data = some "2".data := by
  refine ⟨fun input k => ?_, by decide, by decide, by decide, by decide,
    by decide, by decide⟩
  unfold parseKeyValuePairs kvLookupSpec
  rw [mapLookup_foldl_kvStep]
  simp [mapLookup]

/-! ## Claim theorem for the job-status mapping -/

/-- C4: the job-status to span-status mapping is total: `"success"` maps to
`Ok` with message "Job completed successfully", `"failure"` to `Error` with
"Job failed", and every other string (including `"cancelled"` and the empty
string) to `Unset` with "Job status unknown"; no input fails. -/
theorem job_status_mapping_total (s : Str)
    (hs : s ≠ "success".data) (hf : s ≠ "failure".data) :
    jobStatusToSpanStatus s = (.unset, "Job status unknown".data)
    ∧ jobStatusToSpanStatus "success".data
        = (.ok, "Job completed successfully".data)
    ∧ jobStatusToSpanStatus "failure".data = (.error, "Job failed".data)
    ∧ jobStatusToSpanStatus "cancelled".data
        = (.unset, "Job status unknown".data)
    ∧ jobStatusToSpanStatus "".data = (.unset, "Job status unknown".data) := by
  refine ⟨?_, by decide, by decide, by decide, by decide⟩
  unfold jobStatusToSpanStatus
  rw [if_neg hs, if_neg hf]

theorem job_status_mapping_total_witness :
    ("cancelled".data ≠ "success".data ∧ "cancelled".data ≠ "failure".data)
    ∧ jobStatusToSpanStatus "cancelled".data
        = (.unset, "Job status unknown".data) :=
  ⟨⟨by decide, by decide⟩,
    (job_status_mapping_total "cancelled".data (by decide) (by decide)).1⟩

/-! ## Claim theorems for durations -/

/-- C7 as stated is false: with the end timestamp 1 nanosecond before the
start timestamp, the millisecond duration truncates to 0, which is not
negative, even though the end strictly precedes the start. -/
theorem duration_subMillisecond_counterexample :
    duration 0 1 = 0 ∧ (0 : Int) < 1 ∧ ¬duration 0 1 < 0 := by decide

/-- C7 amended: `duration` in whole milliseconds is antisymmetric,
`duration a b = -duration b a`, and the result is negative (never clamped to
zero) exactly when the end timestamp precedes the start timestamp by at least
one millisecond; sub-millisecond precedence truncates to 0. A created-at 30 s
after started-at yields -30000, surfaced as-is. -/
theorem duration_antisymm_and_sign (a b : Int) :
    duration a b = -duration b a
    ∧ (duration a b < 0 ↔ a + 1000000 ≤ b)
    ∧ duration 0 30000000000 = -30000 := by
  refine ⟨?_, ?_, by decide⟩
  · unfold duration durMs timeSub maxDur minDur
    split_ifs <;> omega
  · unfold duration durMs timeSub maxDur minDur
    split_ifs <;> omega

/-! ## Splitting lemmas -/

theorem splitOnChar_of_not_mem (sep : Char) (l : Str) (h : sep ∉ l) :
    splitOnChar sep l = [l] := by
  induction l with
  | nil => rfl
  | cons c rest ih =>
    simp only [List.mem_cons, not_or] at h
    have hc : ¬c = sep := fun he => h.1 he.symm
    simp [splitOnChar, hc, ih h.2]

theorem splitFirst_of_not_mem (sep : Char) (l : Str) (h : sep ∉ l) :
    splitFirst sep l = [l] := by
  induction l with
  | nil => rfl
  | cons c rest ih =>
    simp only [List.mem_cons, not_or] at h
    have hc : ¬c = sep := fun he => h.1 he.symm
    simp [splitFirst, hc, ih h.2]

theorem splitFirst_append_sep (sep : Char) (k : Str) (h : sep ∉ k) :
    splitFirst sep (k ++ [sep]) = [k, []] := by
  induction k with
  | nil => simp [splitFirst]
  | cons c rest ih =>
    simp only [List.mem_cons, not_or] at h
    have hc : ¬c = sep := fun he => h.1 he.symm
    simp [splitFirst, hc, ih h.2]

/-! ## Claim theorems for edge-case key=value candidates -/

/-- C10 as stated is false: for `v = "a,b"` the input `"=" + v` is first
split on the comma, so the empty key maps to `"a"`, not to `"a,b"`. -/
theorem kv_empty_key_counterexample :
    mapLookup (parseKeyValuePairs "=a,b".data) "".data = some "a".data
    ∧ some "a".data ≠ some "a,b".data := by decide

/-- C10 amended: a candidate is well-formed whenever it contains at least one
`=`, even with an empty key or value, but only within one comma-separated
candidate: for every `v` containing no comma, `parse("=" + v)` maps `""` to
`v`; for every `k` containing no comma and no `=`, `parse(k + "=")` maps `k`
to `""`; an input that is a single candidate with no `=` is dropped,
yielding the empty mapping. -/
theorem kv_single_candidate (v k cand : Str)
    (hv : ',' ∉ v) (hk1 : ',' ∉ k) (hk2 : '=' ∉ k)
    (hc1 : '=' ∉ cand) (hc2 : ',' ∉ cand) :
    mapLookup (parseKeyValuePairs ('=' :: v)) [] = some v
    ∧ mapLookup (parseKeyValuePairs (k ++ ['='])) k = some []
    ∧ parseKeyValuePairs cand = [] := by
  refine ⟨?_, ?_, ?_⟩
  · have hsplit : splitOnChar ',' ('=' :: v) = ['=' :: v] :=
      splitOnChar_of_not_mem ',' ('=' :: v) (by simp [hv])
    simp [parseKeyValuePairs, hsplit, kvStep, splitFirst, mapInsert, mapLookup]
  · have hsplit : splitOnChar ',' (k ++ ['=']) = [k ++ ['=']] := by
      refine splitOnChar_of_not_mem ',' (k ++ ['=']) ?_
      simp [hk1]
    simp [parseKeyValuePairs, hsplit, kvStep,
      splitFirst_append_sep '=' k hk2, mapInsert, mapLookup]
  · have hsplit : splitOnChar ',' cand = [cand] :=
      splitOnChar_of_not_mem ',' cand hc2
    simp [parseKeyValuePairs, hsplit, kvStep, splitFirst_of_not_mem '=' cand hc1]

theorem kv_single_candidate_witness :
    (',' ∉ "x=y".data ∧ ',' ∉ "key".data ∧ '=' ∉ "key".data
      ∧ '=' ∉ "bad".data ∧ ',' ∉ "bad".data)
    ∧ mapLookup (parseKeyValuePairs ('=' :: "x=y".data)) [] = some "x=y".data
    ∧ mapLookup (parseKeyValuePairs ("key".data ++ ['='])) "key".data = some []
    ∧ parseKeyValuePairs "bad".data = [] := by
  have h := kv_single_candidate "x=y".data "key".data "bad".data
    (by decide) (by decide) (by decide) (by decide) (by decide)
  exact ⟨⟨by decide, by decide, by decide, by decide, by decide⟩,
    h.1, h.2.1, h.2.2⟩

/-! ## Resource-construction lemmas -/

theorem mapLookup_dedupLast (l : List (Str × Str)) (k : Str) :
    mapLookup (dedupLast l) k = mapLookup l.reverse k := by
  induction l with
  | nil => rfl
  | cons kv rest ih =>
    obtain ⟨k', v⟩ := kv
    simp only [dedupLast, List.reverse_cons, mapLookup_append]
    by_cases hmem : k' ∈ rest.map Prod.fst
    · rw [if_pos hmem, ih]
      by_cases hk : k' = k
      · subst hk
        have hsome : ∃ v', mapLookup rest.reverse k' = some v' := by
          cases hval : mapLookup rest.reverse k' with
          | none =>
            rw [mapLookup_eq_none_iff] at hval
            simp only [List.map_reverse, List.mem_reverse] at hval
            exact absurd hmem hval
          | some v' => exact ⟨v', rfl⟩
        obtain ⟨v', hv⟩ := hsome
        simp [hv, mapLookup]
      · simp [mapLookup, hk]
    · rw [if_neg hmem]
      simp only [mapLookup]
      by_cases hk : k' = k
      · subst hk
        have hnone : mapLookup rest.reverse k' = none := by
          rw [mapLookup_eq_none_iff]
          simp only [List.map_reverse, List.mem_reverse]
          exact hmem
        simp [hnone, ih]
      · simp [hk, ih]

theorem mapLookup_reverse_of_nodup (m : List (Str × Str))
    (h : (m.map Prod.fst).Nodup) (k : Str) :
    mapLookup m.reverse k = mapLookup m k := by
  induction m with
  | nil => rfl
  | cons kv rest ih =>
    obtain ⟨k', v⟩ := kv
    simp only [List.map_cons, List.nodup_cons] at h
    simp only [List.reverse_cons, mapLookup_append, mapLookup]
    by_cases hk : k' = k
    · subst hk
      have hnone : mapLookup rest.reverse k' = none := by
        rw [mapLookup_eq_none_iff]
        simp only [List.map_reverse, List.mem_reverse]
        exact h.1
      simp [hnone]
    · simp [hk, ih h.2]

theorem mapLookup_perm (m m' : List (Str × Str)) (hp : m.Perm m')
    (h : (m.map Prod.fst).Nodup) (k : Str) :
    mapLookup m k = mapLookup m' k := by
  induction hp with
  | nil => rfl
  | cons x _ ih =>
    obtain ⟨k', v⟩ := x
    simp only [List.map_cons, List.nodup_cons] at h
    simp only [mapLookup]
    by_cases hk : k' = k
    · simp [hk]
    · simp only [if_neg hk]
      exact ih h.2
  | swap x y l =>
    obtain ⟨kx, vx⟩ := x
    obtain ⟨ky, vy⟩ := y
    simp only [List.map_cons, List.nodup_cons, List.mem_cons, not_or] at h
    simp only [mapLookup]
    by_cases hky : ky = k
    · subst hky
      have hkx : ¬kx = ky := fun he => h.1.1 he.symm
      simp [hkx]
    · simp [hky]
  | trans h1 _ ih1 ih2 =>
    rw [ih1 h, ih2 ((h1.map Prod.fst).nodup_iff.mp h)]

/-! ## Claim theorem for the resource attribute set -/

/-- C6: for every service name `s` and every user attribute mapping `m`
(nodup keys, enumerated in any order), the resource attribute set contains
every entry of `m` except that `service.name` is bound to `s`, overwriting
any `service.name` entry of `m`, independently of enumeration order; and the
spec's concrete example holds literally. -/
theorem resource_service_name_wins (s : Str) (m : List (Str × Str))
    (hm : (m.map Prod.fst).Nodup) :
    mapLookup (buildResource s m) "service.name".data = some s
    ∧ (∀ k, k ≠ "service.name".data →
        mapLookup (buildResource s m) k = mapLookup m k)
    ∧ (∀ m', m.Perm m' → ∀ k,
        mapLookup (buildResource s m') k = mapLookup (buildResource s m) k)
    ∧ buildResource "svc".data
        [("service.name".data, "other".data), ("x".data, "1".data)]
        = [("x".data, "1".data), ("service.name".data, "svc".data)] := by
  have hbase : ∀ (m0 : List (Str × Str)) (k : Str),
      mapLookup (buildResource s m0) k
        = if "service.name".data = k then some s else mapLookup m0.reverse k := by
    intro m0 k
    unfold buildResource
    rw [mapLookup_dedupLast, List.reverse_append]
    simp [mapLookup]
  refine ⟨?_, ?_, ?_, by decide⟩
  · rw [hbase, if_pos rfl]
  · intro k hk
    have hne : ¬"service.name".data = k := fun he => hk he.symm
    rw [hbase, if_neg hne, mapLookup_reverse_of_nodup m hm k]
  · intro m' hp k
    have hm' : (m'.map Prod.fst).Nodup := (hp.map Prod.fst).nodup_iff.mp hm
    rw [hbase, hbase]
    by_cases hk : "service.name".data = k
    · rw [if_pos hk, if_pos hk]
    · rw [if_neg hk, if_neg hk, mapLookup_reverse_of_nodup m hm k,
        mapLookup_reverse_of_nodup m' hm' k,
        mapLookup_perm m m' hp hm k]

theorem resource_service_name_wins_witness :
    (["service.name".data, "x".data].Nodup
      ∧ mapLookup (buildResource "svc".data
          [("service.name".data, "other".data), ("x".data, "1".data)])
          "service.name".data = some "svc".data)
    ∧ mapLookup (buildResource "svc".data
        [("service.name".data, "other".data), ("x".data, "1".data)])
        "x".data
        = mapLookup [("service.name".data, "other".data), ("x".data, "1".data)]
            "x".data :=
  ⟨⟨by decide,
      (resource_service_name_wins "svc".data
        [("service.name".data, "other".data), ("x".data, "1".data)]
        (by decide)).1⟩,
    (resource_service_name_wins "svc".data
      [("service.name".data, "other".data), ("x".data, "1".data)]
      (by decide)).2.1 "x".data (by decide)⟩

/-! ## Hexadecimal lemmas -/

theorem hexVal_lt_16 (c : Char) (h : isHexDigit c) : hexVal c < 16 := by
  unfold isHexDigit at h
  unfold hexVal
  split_ifs <;> omega

theorem hexChar_hexVal (c : Char) (h : isHexDigit c) :
    hexChar (hexVal c) = lowerChar c := by
  unfold isHexDigit at h
  unfold hexVal hexChar lowerChar
  rcases h with h | h | h
  · rw [if_pos h, if_pos (show c.toNat - 48 < 10 by omega),
      if_neg (show ¬(65 ≤ c.toNat ∧ c.toNat ≤ 70) by omega),
      show 48 + (c.toNat - 48) = c.toNat by omega, Char.ofNat_toNat]
  · rw [if_neg (show ¬(48 ≤ c.toNat ∧ c.toNat ≤ 57) by omega), if_pos h,
      if_neg (show ¬c.toNat - 87 < 10 by omega),
      if_neg (show ¬(65 ≤ c.toNat ∧ c.toNat ≤ 70) by omega),
      show 87 + (c.toNat - 87) = c.toNat by omega, Char.ofNat_toNat]
  · rw [if_neg (show ¬(48 ≤ c.toNat ∧ c.toNat ≤ 57) by omega),
      if_neg (show ¬(97 ≤ c.toNat ∧ c.toNat ≤ 102) by omega), if_pos h,
      if_neg (show ¬c.toNat - 55 < 10 by omega), if_pos h,
      show 87 + (c.toNat - 55) = c.toNat + 32 by omega]

theorem decodePairs_hex :
    ∀ l : Str, (∀ c ∈ l, isHexDigit c) → l.length % 2 = 0 →
      ∃ bs, decodePairs l = some bs ∧ bs.length = l.length / 2
        ∧ hexEncode bs = l.map lowerChar
  | [], _, _ => ⟨[], rfl, rfl, rfl⟩
  | [c], _, hlen => by simp at hlen
  | a :: b :: rest, h, hlen => by
    have ha : isHexDigit a := h a (by simp)
    have hb : isHexDigit b := h b (by simp)
    have hrest : ∀ c ∈ rest, isHexDigit c := fun c hc => h c (by simp [hc])
    have hlen' : rest.length % 2 = 0 := by
      simp only [List.length_cons] at hlen
      omega
    obtain ⟨bs, h1, h2, h3⟩ := decodePairs_hex rest hrest hlen'
    refine ⟨(16 * hexVal a + hexVal b) :: bs, ?_, ?_, ?_⟩
    · simp only [decodePairs, if_pos (And.intro ha hb), h1]
      rfl
    · simp only [List.length_cons, h2]
      omega
    · have hva := hexVal_lt_16 a ha
      have hvb := hexVal_lt_16 b hb
      have e1 : (16 * hexVal a + hexVal b) / 16 = hexVal a := by omega
      have e2 : (16 * hexVal a + hexVal b) % 16 = hexVal b := by omega
      simp only [hexEncode, List.flatMap_cons, List.map_cons]
      rw [show encByte (16 * hexVal a + hexVal b)
            = [hexChar ((16 * hexVal a + hexVal b) / 16),
               hexChar ((16 * hexVal a + hexVal b) % 16)] from rfl,
        e1, e2, hexChar_hexVal a ha, hexChar_hexVal b hb]
      simpa [hexEncode] using h3

/-! ## Claim theorems for traceparent parsing -/

/-- C3 as stated is false at two explicit inputs the code accepts although
the claim requires failure: a traceparent whose version and flags segments
are not hexadecimal, and a traceparent whose trace-id segment decodes to 20
bytes instead of exactly 16. -/
theorem traceparent_lenient_counterexample :
    hexDecode "zz".data = none
    ∧ emitsSpan (parseTraceparent
        "zz-4bf92f3577b34da6a3ce929d0e0e4736-00f067aa0ba902b7-zz".data) = true
    ∧ (hexDecode "4bf92f3577b34da6a3ce929d0e0e47364bf92f35".data).map
        List.length = some 20
    ∧ emitsSpan (parseTraceparent
        "00-4bf92f3577b34da6a3ce929d0e0e47364bf92f35-00f067aa0ba902b7-01".data)
        = true := by decide

/-- C3 amended: parsing aborts via `Fatalf` iff the input does not split on
`-` into exactly 4 segments or the trace-id/parent-id segment is not valid
hexadecimal; version and flags are never validated, a decoded trace-id or
parent-id shorter than 16 / 8 bytes causes a runtime panic (still emitting no
span) at the slice-to-array conversion, and longer ones are accepted,
truncated to their first 16 / 8 bytes. -/
theorem traceparent_parse_characterization :
    (∀ tp, (splitOnChar '-' tp).length ≠ 4 →
      parseTraceparent tp = .fatalSegments)
    ∧ (∀ tp v t p f, splitOnChar '-' tp = [v, t, p, f] →
        (parseTraceparent tp = .fatalTraceID ↔ hexDecode t = none)
        ∧ (hexDecode t ≠ none →
            (parseTraceparent tp = .fatalSpanID ↔ hexDecode p = none))
        ∧ (∀ bs cs, hexDecode t = some bs → hexDecode p = some cs →
            (parseTraceparent tp = .panicShort
              ↔ (bs.length < 16 ∨ cs.length < 8))
            ∧ (16 ≤ bs.length → 8 ≤ cs.length →
                parseTraceparent tp = .ok (bs.take 16) (cs.take 8)))) := by
  constructor
  · intro tp hlen
    unfold parseTraceparent
    rcases hsp : splitOnChar '-' tp with _ | ⟨v, _ | ⟨t, _ | ⟨p, _ | ⟨f, _ | r⟩⟩⟩⟩ <;>
      first
        | rfl
        | (exact absurd (by rw [hsp]; simp) hlen)
  · intro tp v t p f hs
    refine ⟨?_, ?_, ?_⟩
    · cases hdt : hexDecode t with
      | none => simp [parseTraceparent, hs, hdt]
      | some bs =>
        cases hdp : hexDecode p with
        | none => simp [parseTraceparent, hs, hdt, hdp]
        | some cs =>
          simp only [parseTraceparent, hs, hdt, hdp]
          constructor
          · intro hcontra
            split_ifs at hcontra
          · intro hcontra
            simp at hcontra
    · intro hne
      cases hdt : hexDecode t with
      | none => exact absurd hdt hne
      | some bs =>
        cases hdp : hexDecode p with
        | none => simp [parseTraceparent, hs, hdt, hdp]
        | some cs =>
          simp only [parseTraceparent, hs, hdt, hdp]
          constructor
          · intro hcontra
            split_ifs at hcontra
          · intro hcontra
            simp at hcontra
    · intro bs cs hdt hdp
      simp only [parseTraceparent, hs, hdt, hdp]
      constructor
      · constructor
        · intro hps
          by_cases h1 : bs.length < 16
          · exact Or.inl h1
          · by_cases h2 : cs.length < 8
            · exact Or.inr h2
            · rw [if_neg h1, if_neg h2] at hps
              exact absurd hps (by simp)
        · intro hor
          rcases hor with h1 | h1
          · rw [if_pos h1]
          · by_cases h0 : bs.length < 16
            · rw [if_pos h0]
            · rw [if_neg h0, if_pos h1]
      · intro hb hc
        rw [if_neg (by omega), if_neg (by omega)]

theorem traceparent_parse_characterization_witness :
    parseTraceparent "x".data = .fatalSegments
    ∧ parseTraceparent
        "00-4bf92f3577b34da6a3ce929d0e0e4736-00f067aa0ba902b7-01".data
        = .ok [75, 249, 47, 53, 119, 179, 77, 166, 163, 206, 146, 157, 14, 14,
            71, 54] [0, 240, 103, 170, 11, 169, 2, 183] := by
  constructor
  · exact traceparent_parse_characterization.1 "x".data (by decide)
  · have h := ((traceparent_parse_characterization.2
      "00-4bf92f3577b34da6a3ce929d0e0e4736-00f067aa0ba902b7-01".data
      "00".data "4bf92f3577b34da6a3ce929d0e0e4736".data
      "00f067aa0ba902b7".data "01".data (by decide)).2.2
      [75, 249, 47, 53, 119, 179, 77, 166, 163, 206, 146, 157, 14, 14, 71, 54]
      [0, 240, 103, 170, 11, 169, 2, 183]
      (by decide) (by decide)).2 (by decide) (by decide)
    exact h.trans (by decide)

/-- C8: for every traceparent with 4 segments whose trace-id segment is 32
hex characters and parent-id segment is 16 hex characters, parsing succeeds
and the stored trace ID and span ID re-encode to the lowercase form of the
original segments (equality up to ASCII case). -/
theorem traceparent_roundtrip (tp v t p f : Str)
    (hs : splitOnChar '-' tp = [v, t, p, f])
    (ht : t.length = 32) (hth : ∀ c ∈ t, isHexDigit c)
    (hp : p.length = 16) (hph : ∀ c ∈ p, isHexDigit c) :
    ∃ tid sid, parseTraceparent tp = .ok tid sid
      ∧ hexEncode tid = t.map lowerChar
      ∧ hexEncode sid = p.map lowerChar := by
  obtain ⟨bs, hb1, hb2, hb3⟩ := decodePairs_hex t hth (by omega)
  obtain ⟨cs, hc1, hc2, hc3⟩ := decodePairs_hex p hph (by omega)
  have hbl : bs.length = 16 := by rw [hb2, ht]
  have hcl : cs.length = 8 := by rw [hc2, hp]
  refine ⟨bs, cs, ?_, hb3, hc3⟩
  have hok := ((traceparent_parse_characterization.2 tp v t p f hs).2.2 bs cs
    hb1 hc1).2 (by omega) (by omega)
  rw [hok]
  rw [show bs.take 16 = bs by rw [← hbl, List.take_length],
    show cs.take 8 = cs by rw [← hcl, List.take_length]]

theorem traceparent_roundtrip_witness :
    splitOnChar '-'
        "00-4bf92f3577b34da6a3ce929d0e0e4736-00f067aa0ba902b7-01".data
      = ["00".data, "4bf92f3577b34da6a3ce929d0e0e4736".data,
          "00f067aa0ba902b7".data, "01".data]
    ∧ ∃ tid sid,
        parseTraceparent
            "00-4bf92f3577b34da6a3ce929d0e0e4736-00f067aa0ba902b7-01".data
          = .ok tid sid
        ∧ hexEncode tid = "4bf92f3577b34da6a3ce929d0e0e4736".data
        ∧ hexEncode sid = "00f067aa0ba902b7".data := by
  refine ⟨by decide, ?_⟩
  obtain ⟨tid, sid, h1, h2, h3⟩ := traceparent_roundtrip
    "00-4bf92f3577b34da6a3ce929d0e0e4736-00f067aa0ba902b7-01".data
    "00".data "4bf92f3577b34da6a3ce929d0e0e4736".data
    "00f067aa0ba902b7".data "01".data
    (by decide) (by decide) (by decide) (by decide) (by decide)
  exact ⟨tid, sid, h1, h2.trans (by decide), h3.trans (by decide)⟩

/-! ## Span attribute-list lemmas -/

theorem attrLookup_append (l1 l2 : List (Str × AttrValue)) (k : Str) :
    attrLookup (l1 ++ l2) k = (attrLookup l1 k).or (attrLookup l2 k) := by
  induction l1 with
  | nil => simp [attrLookup]
  | cons kv rest ih =>
    obtain ⟨k', v⟩ := kv
    by_cases h : k' = k
    · simp [attrLookup, h]
    · simp [attrLookup, h, ih]

theorem attrLookup_map_str_none (m : List (Str × Str)) (k : Str)
    (h : ∀ kv ∈ m, kv.1 ≠ k) :
    attrLookup (m.map (fun kv => (kv.1, AttrValue.str kv.2))) k = none := by
  induction m with
  | nil => rfl
  | cons kv rest ih =>
    obtain ⟨k', v⟩ := kv
    have h1 : k' ≠ k := h (k', v) (by simp)
    simp only [List.map_cons, attrLookup, if_neg h1]
    exact ih (fun kv hkv => h kv (by simp [hkv]))

/-! ## Claim theorem for the exit paths (tracer shutdown) -/

/-- C1 evaluated against the code: with the exporter successfully initialized
and an invalid traceparent (or an invalid started-at), the run aborts via
`githubactions.Fatalf`, which exits through `os.Exit(1)` and therefore skips
the deferred `shutdownTracer` — the provider's shutdown/flush is NOT invoked
on these fatal-abort paths, although it is on the normal path. -/
theorem shutdown_skipped_on_fatal_abort :
    runMain ptDemo nowDemo true { paramsDemo with Traceparent := "xyz".data }
      = { outcome := .fatal fmtInvalidTraceparent,
          providerInitialized := true, shutdownInvoked := false }
    ∧ runMain ptDemo nowDemo true { paramsDemo with StartedAt := "bad".data }
      = { outcome := .fatal fmtInvalidStartedAt,
          providerInitialized := true, shutdownInvoked := false }
    ∧ (runMain ptDemo nowDemo true paramsDemo).shutdownInvoked = true := by
  decide

/-! ## Claim theorems for the emitted span's attributes -/

/-- C2 as stated is false: on a successful concrete run the span carries no
attribute named `ci.workflow.job.conclusion` or `ci.workflow.job.duration_ms`
— the code's attribute keys carry the `ci.github.workflow.job.` prefix. -/
theorem span_attribute_names_counterexample :
    resultEmitsSpan (runMain ptDemo nowDemo true paramsDemo) = true
    ∧ resultAttrLookup (runMain ptDemo nowDemo true paramsDemo)
        "ci.workflow.job.conclusion".data = none
    ∧ resultAttrLookup (runMain ptDemo nowDemo true paramsDemo)
        "ci.workflow.job.duration_ms".data = none
    ∧ resultAttrLookup (runMain ptDemo nowDemo true paramsDemo)
        keyConclusion = some (.str "success".data)
    ∧ resultAttrLookup (runMain ptDemo nowDemo true paramsDemo)
        keyDuration = some (.int 5000) := by
  decide

/-- C2 amended: on every successful run the span carries
`ci.github.workflow.job.conclusion` equal to the raw job-status string and
`ci.github.workflow.job.duration_ms` (always present);
`ci.github.workflow.job.start_latency_ms` is present iff created-at was
supplied, equal to duration(started-at, created-at) in whole milliseconds;
`ci.github.workflow.job.name` equal to the job-name input is present iff
job-name was supplied — provided the user resource attributes do not reuse
these four keys (all attributes are set in one batch where a duplicate key
would collide). -/
theorem span_ci_attributes (pt : Str → Option Int) (now : Int)
    (params : InputParams) (tid sid : List Nat) (stNs : Int)
    (hTP : parseTraceparent params.Traceparent = .ok tid sid)
    (hst : pt params.StartedAt = some stNs)
    (hm : ∀ kv ∈ params.OtelResourceAttrs,
      kv.1 ≠ keyConclusion ∧ kv.1 ≠ keyStartLatency ∧ kv.1 ≠ keyJobName
        ∧ kv.1 ≠ keyDuration) :
    (params.CreatedAt = [] →
      ∃ span, (runMain pt now true params).outcome = .ok span
        ∧ attrLookup span.attributes keyConclusion
            = some (.str params.JobStatus)
        ∧ attrLookup span.attributes keyDuration
            = some (.int (duration now stNs))
        ∧ attrLookup span.attributes keyStartLatency = none
        ∧ (params.JobName = [] →
            attrLookup span.attributes keyJobName = none)
        ∧ (params.JobName ≠ [] →
            attrLookup span.attributes keyJobName
              = some (.str params.JobName)))
    ∧ (∀ cNs, params.CreatedAt ≠ [] → pt params.CreatedAt = some cNs →
      ∃ span, (runMain pt now true params).outcome = .ok span
        ∧ attrLookup span.attributes keyConclusion
            = some (.str params.JobStatus)
        ∧ attrLookup span.attributes keyDuration
            = some (.int (duration now stNs))
        ∧ attrLookup span.attributes keyStartLatency
            = some (.int (duration stNs cNs))
        ∧ (params.JobName = [] →
            attrLookup span.attributes keyJobName = none)
        ∧ (params.JobName ≠ [] →
            attrLookup span.attributes keyJobName
              = some (.str params.JobName))) := by
  have n12 : ¬(keyConclusion = keyStartLatency) := by decide
  have n13 : ¬(keyConclusion = keyJobName) := by decide
  have n14 : ¬(keyConclusion = keyDuration) := by decide
  have n24 : ¬(keyStartLatency = keyDuration) := by decide
  have n23 : ¬(keyStartLatency = keyJobName) := by decide
  have n34 : ¬(keyJobName = keyDuration) := by decide
  have n21 : ¬(keyStartLatency = keyConclusion) := by decide
  have n31 : ¬(keyJobName = keyConclusion) := by decide
  have n32 : ¬(keyJobName = keyStartLatency) := by decide
  have n41 : ¬(keyDuration = keyConclusion) := by decide
  have n42 : ¬(keyDuration = keyStartLatency) := by decide
  have n43 : ¬(keyDuration = keyJobName) := by decide
  have hmap : ∀ k, (k = keyConclusion ∨ k = keyStartLatency ∨ k = keyJobName
      ∨ k = keyDuration) →
      attrLookup (params.OtelResourceAttrs.map
        (fun kv => (kv.1, AttrValue.str kv.2))) k = none := by
    intro k hk
    refine attrLookup_map_str_none _ _ (fun kv hkv => ?_)
    obtain ⟨h1, h2, h3, h4⟩ := hm kv hkv
    rcases hk with h | h | h | h <;> (subst h; assumption)
  have hc := hmap keyConclusion (Or.inl rfl)
  have hl := hmap keyStartLatency (Or.inr (Or.inl rfl))
  have hj := hmap keyJobName (Or.inr (Or.inr (Or.inl rfl)))
  have hd := hmap keyDuration (Or.inr (Or.inr (Or.inr rfl)))
  constructor
  · intro hcd
    by_cases hjn : params.JobName = []
    · simp only [runMain, hTP, hst, hcd, hjn, if_pos rfl]
      refine ⟨_, rfl, ?_, ?_, ?_, fun _ => ?_, fun hne => absurd rfl hne⟩ <;>
        simp [attrLookup_append, attrLookup, n12, n13, n14, n21, n23, n24,
          n31, n32, n34, n41, n42, n43, hc, hl, hj, hd]
    · simp only [runMain, hTP, hst, hcd, if_pos rfl, if_neg hjn]
      refine ⟨_, rfl, ?_, ?_, ?_, fun he => absurd he hjn, fun _ => ?_⟩ <;>
        simp [attrLookup_append, attrLookup, n12, n13, n14, n21, n23, n24,
          n31, n32, n34, n41, n42, n43, hc, hl, hj, hd]
  · intro cNs hcd hpc
    by_cases hjn : params.JobName = []
    · simp only [runMain, hTP, hst, hpc, hjn, if_pos rfl, if_neg hcd]
      refine ⟨_, rfl, ?_, ?_, ?_, fun _ => ?_, fun hne => absurd rfl hne⟩ <;>
        simp [attrLookup_append, attrLookup, n12, n13, n14, n21, n23, n24,
          n31, n32, n34, n41, n42, n43, hc, hl, hj, hd]
    · simp only [runMain, hTP, hst, hpc, if_pos rfl, if_neg hcd,
        if_neg hjn]
      refine ⟨_, rfl, ?_, ?_, ?_, fun he => absurd he hjn, fun _ => ?_⟩ <;>
        simp [attrLookup_append, attrLookup, n12, n13, n14, n21, n23, n24,
          n31, n32, n34, n41, n42, n43, hc, hl, hj, hd]

theorem span_ci_attributes_witness :
    ∃ span, (runMain ptDemo nowDemo true paramsDemo).outcome = .ok span
      ∧ attrLookup span.attributes keyConclusion
          = some (.str paramsDemo.JobStatus)
      ∧ attrLookup span.attributes keyDuration
          = some (.int (duration nowDemo 1704067200000000000))
      ∧ attrLookup span.attributes keyStartLatency
          = some (.int (duration 1704067200000000000 1704067170000000000))
      ∧ (paramsDemo.JobName = [] →
          attrLookup span.attributes keyJobName = none)
      ∧ (paramsDemo.JobName ≠ [] →
          attrLookup span.attributes keyJobName
            = some (.str paramsDemo.JobName)) :=
  (span_ci_attributes ptDemo nowDemo paramsDemo
    [75, 249, 47, 53, 119, 179, 77, 166, 163, 206, 146, 157, 14, 14, 71, 54]
    [0, 240, 103, 170, 11, 169, 2, 183] 1704067200000000000
    (by decide) (by decide) (by decide)).2
    1704067170000000000 (by decide) (by decide)

/-! ## Claim theorem for empty optional inputs -/

/-- C9: an empty string for an optional input is treated as absence, never as
a malformed value: with created-at empty the run never aborts with the
created-at message and emits a span without the start-latency attribute; with
job-name empty no name attribute is attached; and the run aborts with the
created-at message iff created-at is non-empty and the RFC 3339 parse fails. -/
theorem empty_optional_inputs (pt : Str → Option Int) (now : Int)
    (params : InputParams) (tid sid : List Nat) (stNs : Int)
    (hTP : parseTraceparent params.Traceparent = .ok tid sid)
    (hst : pt params.StartedAt = some stNs)
    (hm : ∀ kv ∈ params.OtelResourceAttrs,
      kv.1 ≠ keyStartLatency ∧ kv.1 ≠ keyJobName) :
    ((runMain pt now true params).outcome = .fatal fmtInvalidCreatedAt
      ↔ params.CreatedAt ≠ [] ∧ pt params.CreatedAt = none)
    ∧ (params.CreatedAt = [] →
        ∃ span, (runMain pt now true params).outcome = .ok span
          ∧ attrLookup span.attributes keyStartLatency = none)
    ∧ (params.JobName = [] →
        ∀ span, (runMain pt now true params).outcome = .ok span →
          attrLookup span.attributes keyJobName = none) := by
  have n12 : ¬(keyConclusion = keyStartLatency) := by decide
  have n13 : ¬(keyConclusion = keyJobName) := by decide
  have n42 : ¬(keyDuration = keyStartLatency) := by decide
  have n43 : ¬(keyDuration = keyJobName) := by decide
  have n23 : ¬(keyStartLatency = keyJobName) := by decide
  have n32 : ¬(keyJobName = keyStartLatency) := by decide
  have hl : attrLookup (params.OtelResourceAttrs.map
      (fun kv => (kv.1, AttrValue.str kv.2))) keyStartLatency = none :=
    attrLookup_map_str_none _ _ (fun kv hkv => (hm kv hkv).1)
  have hj : attrLookup (params.OtelResourceAttrs.map
      (fun kv => (kv.1, AttrValue.str kv.2))) keyJobName = none :=
    attrLookup_map_str_none _ _ (fun kv hkv => (hm kv hkv).2)
  by_cases hcd : params.CreatedAt = []
  · refine ⟨?_, fun _ => ?_, fun hjn span hspan => ?_⟩
    · simp [runMain, hTP, hst, hcd]
    · by_cases hjn : params.JobName = []
      · simp only [runMain, hTP, hst, hcd, hjn, if_pos rfl]
        refine ⟨_, rfl, ?_⟩
        simp [attrLookup_append, attrLookup, n12, n42, hl]
      · simp only [runMain, hTP, hst, hcd, if_pos rfl, if_neg hjn]
        refine ⟨_, rfl, ?_⟩
        simp [attrLookup_append, attrLookup, n12, n32, n42, hl]
    · simp [runMain, hTP, hst, hcd, hjn] at hspan
      subst hspan
      simp [attrLookup_append, attrLookup, n13, n43, hj]
  · cases hpc : pt params.CreatedAt with
    | none =>
      refine ⟨?_, fun he => absurd he hcd, fun hjn span hspan => ?_⟩
      · simp only [runMain, hTP, hst, hpc, if_neg hcd]
        simp [hcd]
      · simp only [runMain, hTP, hst, hpc, if_neg hcd] at hspan
        exact absurd hspan (by simp)
    | some cNs =>
      refine ⟨?_, fun he => absurd he hcd, fun hjn span hspan => ?_⟩
      · by_cases hjn : params.JobName = []
        · simp only [runMain, hTP, hst, hpc, hjn, if_neg hcd, if_pos rfl]
          simp [hpc]
        · simp only [runMain, hTP, hst, hpc, if_neg hcd, if_neg hjn]
          simp [hpc]
      · simp [runMain, hTP, hst, hpc, hjn, hcd] at hspan
        subst hspan
        simp [attrLookup_append, attrLookup, n13, n23, n43, hj]

theorem empty_optional_inputs_witness :
    ((runMain ptDemo nowDemo true paramsDemoNoOpt).outcome
        = .fatal fmtInvalidCreatedAt
      ↔ paramsDemoNoOpt.CreatedAt ≠ []
        ∧ ptDemo paramsDemoNoOpt.CreatedAt = none)
    ∧ (paramsDemoNoOpt.CreatedAt = [] →
        ∃ span, (runMain ptDemo nowDemo true paramsDemoNoOpt).outcome
            = .ok span
          ∧ attrLookup span.attributes keyStartLatency = none)
    ∧ (paramsDemoNoOpt.JobName = [] →
        ∀ span, (runMain ptDemo nowDemo true paramsDemoNoOpt).outcome
            = .ok span →
          attrLookup span.attributes keyJobName = none) :=
  empty_optional_inputs ptDemo nowDemo paramsDemoNoOpt
    [75, 249, 47, 53, 119, 179, 77, 166, 163, 206, 146, 157, 14, 14, 71, 54]
    [0, 240, 103, 170, 11, 169, 2, 183] 1704067200000000000
    (by decide) (by decide) (by decide)

end ExportJobTelemetry
